import Mathlib

/-!
Verification development for the week-tech-go-server repository
(`internal/api`: room-scoped publish/subscribe fan-out over websockets).

The Go code is shallowly embedded:
* the `subscribers map[string]map[*websocket.Conn]context.CancelFunc` field
  of `apiHandler` becomes an association list with Go-map semantics
  (unique keys, lookup / assign / delete);
* HTTP handlers become trace functions: each handler, given an environment
  describing the outcomes of its external calls (UUID parsing, Store
  queries, websocket upgrade, JSON marshalling, response writing), produces
  the list of observable actions the Go function performs, in order;
* `notifyClients` becomes a function from the registry state, the message
  and a per-connection send outcome to the unchanged registry state, the
  list of successful deliveries and the list of invoked cancel handles.
-/

namespace WsServer

/-- Identity of one `*websocket.Conn` value. -/
abbrev Conn := Nat

/-- Identity of one `context.CancelFunc` value. -/
abbrev CancelHandle := Nat

/-- Go map lookup `m[k]` (comma-ok form): the value at the first (unique)
matching key, if any. -/
def mapLookup {α β : Type} [DecidableEq α] : List (α × β) → α → Option β
  | [], _ => none
  | (a, b) :: rest, k => if a = k then some b else mapLookup rest k

/-- Go map assignment `m[k] = v`: replaces the entry when the key is
present, appends it otherwise. -/
def mapInsert {α β : Type} [DecidableEq α] : List (α × β) → α → β → List (α × β)
  | [], k, v => [(k, v)]
  | (a, b) :: rest, k, v => if a = k then (k, v) :: rest else (a, b) :: mapInsert rest k v

/-- Go map `delete(m, k)`: removes the entry for the key if present,
otherwise leaves the map unchanged. -/
def mapErase {α β : Type} [DecidableEq α] : List (α × β) → α → List (α × β)
  | [], _ => []
  | (a, b) :: rest, k => if a = k then rest else (a, b) :: mapErase rest k

/-- The `subscribers` field of `apiHandler`: room id (as string) to the
map from connection to its cancel function. -/
abbrev SubscriptionSet := List (String × List (Conn × CancelHandle))

/-- Registration step of `handleSubscribeToRoom` (the critical section at
lines 139-145): create the inner map for the room when absent, then insert
the connection with its cancel function. -/
def subscribe (s : SubscriptionSet) (room : String) (c : Conn) (k : CancelHandle) :
    SubscriptionSet :=
  match mapLookup s room with
  | none => mapInsert s room [(c, k)]
  | some inner => mapInsert s room (mapInsert inner c k)

/-- Cleanup step of `handleSubscribeToRoom` (lines 150-154):
`delete(h.subscribers[roomId.String()], c)`.  Indexing a missing outer key
yields Go's nil map, on which `delete` is a no-op, so the state is
unchanged when the room key is absent; otherwise only the inner entry for
the connection is deleted and the room key keeps pointing at the (possibly
now empty) inner map. -/
def unsubscribe (s : SubscriptionSet) (room : String) (c : Conn) : SubscriptionSet :=
  match mapLookup s room with
  | none => s
  | some inner => mapInsert s room (mapErase inner c)

/-- Membership: the connection has an entry in the room's inner map. -/
def memConn (s : SubscriptionSet) (room : String) (c : Conn) : Bool :=
  match mapLookup s room with
  | none => false
  | some inner => (mapLookup inner c).isSome

/-- The outer map has an entry for the room. -/
def hasRoom (s : SubscriptionSet) (room : String) : Bool :=
  (mapLookup s room).isSome

/-- Keys of an association list are pairwise distinct (always true of a
Go map; an invariant of every reachable `SubscriptionSet`). -/
def keysNodup {α β : Type} (m : List (α × β)) : Prop :=
  (m.map Prod.fst).Nodup

/-- Well-formedness of a registry state: every inner map has distinct
connection keys, as a Go map does. -/
def WF (s : SubscriptionSet) : Prop :=
  ∀ p ∈ s, keysNodup p.2

instance {α β : Type} [DecidableEq α] (m : List (α × β)) : Decidable (keysNodup m) := by
  unfold keysNodup
  infer_instance

instance (s : SubscriptionSet) : Decidable (WF s) := by
  unfold WF
  infer_instance




/-- Minimal JSON value model: just enough for what `encoding/json`
produces for the structs serialized by the handlers. -/
inductive Json where
  | str : String → Json
  | num : Int → Json
  | obj : List (String × Json) → Json

/-- Constant `MessageKindMessageCreated = "message_created"`. -/
def MessageKindMessageCreated : String := "message_created"

/-- Struct `MessageMessageCreated` with fields tagged `id` and
`message`. -/
structure MessageMessageCreated where
  ID : String
  Message : String

/-- Struct `Message`: `Kind` tagged `kind`, `Value` tagged `value`, and
`RoomID` tagged `-` (excluded from serialization).  In Go `Value` has type
`any`; the only value ever placed there is a `MessageMessageCreated`
(built in `handleCreateRoomMessage`), which is what this embedding
types it as. -/
structure Message where
  Kind : String
  Value : MessageMessageCreated
  RoomID : String

/-- `encoding/json` output for `MessageMessageCreated`: fields in
declaration order under their tag names. -/
def encodeMessageMessageCreated (v : MessageMessageCreated) : Json :=
  Json.obj [("id", Json.str v.ID), ("message", Json.str v.Message)]

/-- `encoding/json` output for `Message` (what `conn.WriteJSON(msg)`
sends): `kind` and `value` in declaration order; `RoomID` is omitted
because its tag is `-`. -/
def encodeMessage (m : Message) : Json :=
  Json.obj [("kind", Json.str m.Kind), ("value", encodeMessageMessageCreated m.Value)]

/-- Top-level field names of a JSON object. -/
def jsonObjKeys : Json → List String
  | Json.obj fields => fields.map Prod.fst
  | _ => []

/-- The `for conn, cancel := range subscribers` loop of `notifyClients`:
each connection gets a `WriteJSON` attempt; on success the payload is
delivered, on failure the connection's cancel function is invoked.
`sendOk` gives the outcome of the write on each connection. -/
def broadcastLoop (payload : Json) (sendOk : Conn → Bool) :
    List (Conn × CancelHandle) → List (Conn × Json) × List (Conn × CancelHandle)
  | [] => ([], [])
  | (c, k) :: rest =>
    let r := broadcastLoop payload sendOk rest
    if sendOk c then ((c, payload) :: r.1, r.2) else (r.1, (c, k) :: r.2)

/-- `notifyClients` (message.go lines 171-187): under the lock, look up
the room's subscribers; return immediately when the key is absent or the
set is empty; otherwise attempt delivery to every connection.  The
function never mutates `subscribers` (the first component returns the
state unchanged) and has no error result: a failed send only invokes that
connection's cancel function. -/
def notifyClients (s : SubscriptionSet) (msg : Message) (sendOk : Conn → Bool) :
    SubscriptionSet × List (Conn × Json) × List (Conn × CancelHandle) :=
  match mapLookup s msg.RoomID with
  | none => (s, [], [])
  | some inner =>
    if inner.length = 0 then (s, [], [])
    else
      let r := broadcastLoop (encodeMessage msg) sendOk inner
      (s, r.1, r.2)


/-- Observable actions a handler performs, in program order: Store calls,
the websocket upgrade attempt, `http.Error` responses (status and body),
successful response writes / bare `WriteHeader` calls (status only),
registration and deregistration in the subscriber map, the suspension on
`<-ctx.Done()`, closing the websocket, and the `go h.notifyClients(...)`
invocation with the message it carries. -/
inductive Action where
  | storeGetRoom (room : String)
  | storeInsertMessage (room text : String)
  | storeGetMessage (mid : String)
  | storeRemoveReaction (mid : String)
  | upgrade
  | respondError (status : Nat) (body : String)
  | writeResponse (status : Nat)
  | register (room : String) (c : Conn)
  | waitDone
  | unregister (room : String) (c : Conn)
  | closeConn (c : Conn)
  | publish (room mid text : String)
  deriving DecidableEq, Repr

/-- Outcome of `h.q.GetRoom` / similar single-row Store queries: a row,
`pgx.ErrNoRows`, or any other error. -/
inductive StoreResult where
  | found
  | noRows
  | otherErr
  deriving DecidableEq, Repr

/-- Why `<-ctx.Done()` unblocked: the request context was cancelled by the
client disconnecting, or the cancel function was invoked by a failed
broadcast delivery.  The cleanup code does not inspect the cause. -/
inductive TerminationCause where
  | clientDisconnect
  | broadcastCancel
  deriving DecidableEq, Repr

/-- Environment of one `handleSubscribeToRoom` call: result of
`utils.ParseUUIDParam` (the parsed room id rendered by `.String()`),
result of `h.q.GetRoom`, outcome of `h.upgrader.Upgrade`, the connection
obtained on a successful upgrade, and what eventually cancels the session
context. -/
structure SubscribeEnv where
  parsedRoom : Option String
  getRoom : StoreResult
  upgradeOk : Bool
  conn : Conn
  cause : TerminationCause
  deriving DecidableEq, Repr

/-- Trace of `handleSubscribeToRoom` (message.go lines 110-155): parse the
room id (400 on failure); `GetRoom` (404 on `ErrNoRows`, 500 on other
errors); upgrade (400 on failure); then register, block on the context,
deregister on wakeup, and close the connection via the deferred `Close`.
The cleanup does not depend on `cause`, which is why the field is unused
here. -/
def subscribeTrace (env : SubscribeEnv) : List Action :=
  match env.parsedRoom with
  | none => [Action.respondError 400 "invalid room id"]
  | some room =>
    Action.storeGetRoom room ::
    match env.getRoom with
    | StoreResult.noRows => [Action.respondError 404 "room not found"]
    | StoreResult.otherErr => [Action.respondError 500 "something went wrong"]
    | StoreResult.found =>
      Action.upgrade ::
      if env.upgradeOk then
        [Action.register room env.conn, Action.waitDone,
         Action.unregister room env.conn, Action.closeConn env.conn]
      else
        [Action.respondError 400 "failed to upgrade connection"]

/-- Environment of one `handleCreateRoomMessage` call: parse result,
`GetRoom` result, whether the body decoded, the decoded `message` field,
the `InsertMessage` result (`some id` on success, `none` on error), and
whether `json.Marshal` and `w.Write` succeeded. -/
structure CreateMessageEnv where
  parsedRoom : Option String
  getRoom : StoreResult
  bodyOk : Bool
  bodyMessage : String
  insertResult : Option String
  marshalOk : Bool
  writeOk : Bool
  deriving DecidableEq, Repr

/-- Trace of `handleCreateRoomMessage` (message.go lines 256-313): parse
(400), `GetRoom` (404/500), decode body (400), `InsertMessage` (500 on
error), marshal the response (500 on error, and return without
publishing), write the 201 response (500 on error, and return without
publishing), and only then `go h.notifyClients(...)` with the
message-created event carrying the new id and the request's text. -/
def createMessageTrace (env : CreateMessageEnv) : List Action :=
  match env.parsedRoom with
  | none => [Action.respondError 400 "invalid room id"]
  | some room =>
    Action.storeGetRoom room ::
    match env.getRoom with
    | StoreResult.noRows => [Action.respondError 404 "room not found"]
    | StoreResult.otherErr => [Action.respondError 500 "something went wrong"]
    | StoreResult.found =>
      if env.bodyOk then
        Action.storeInsertMessage room env.bodyMessage ::
        match env.insertResult with
        | none => [Action.respondError 500 "something went wrong"]
        | some mid =>
          if env.marshalOk then
            Action.writeResponse 201 ::
            if env.writeOk then
              [Action.publish room mid env.bodyMessage]
            else
              [Action.respondError 500 "something went wrong"]
          else
            [Action.respondError 500 "something went wrong"]
      else
        [Action.respondError 400 "invalid json"]

/-- Row returned by `h.q.GetMessage`: the fields
`handleRemoveReactionFromMessage` reads. -/
structure StoredMessage where
  ID : String
  RoomID : String
  Message : String
  ReactionCount : Int
  Answered : Bool
  deriving DecidableEq, Repr

/-- Outcome of `h.q.GetMessage`. -/
inductive GetMessageResult where
  | ok (m : StoredMessage)
  | noRows
  | otherErr
  deriving DecidableEq, Repr

/-- Environment of one `handleRemoveReactionFromMessage` call. -/
structure RemoveReactionEnv where
  parsedRoom : Option String
  parsedMessage : Option String
  getMessage : GetMessageResult
  removeResult : Option Int
  marshalOk : Bool
  writeOk : Bool
  deriving DecidableEq, Repr

/-- Trace of `handleRemoveReactionFromMessage` (message.go lines 445-499):
parse both ids (400), `GetMessage` (404/500), 404 when the message belongs
to a different room, 204 immediately when `ReactionCount == 0`, otherwise
call `RemoveReactionFromMessage` (500 on error) and write the 200 response
with the new count. -/
def removeReactionTrace (env : RemoveReactionEnv) : List Action :=
  match env.parsedRoom with
  | none => [Action.respondError 400 "invalid room id"]
  | some room =>
    match env.parsedMessage with
    | none => [Action.respondError 400 "invalid message id"]
    | some mid =>
      Action.storeGetMessage mid ::
      match env.getMessage with
      | GetMessageResult.noRows => [Action.respondError 404 "message not found"]
      | GetMessageResult.otherErr => [Action.respondError 500 "something went wrong"]
      | GetMessageResult.ok m =>
        if m.RoomID ≠ room then [Action.respondError 404 "message not found"]
        else if m.ReactionCount = 0 then [Action.writeResponse 204]
        else
          Action.storeRemoveReaction mid ::
          match env.removeResult with
          | none => [Action.respondError 500 "something went wrong"]
          | some _ =>
            if env.marshalOk then
              Action.writeResponse 200 ::
              if env.writeOk then [] else [Action.respondError 500 "something went wrong"]
            else
              [Action.respondError 500 "something went wrong"]

/-- The action occurs in the trace. -/
def occursB (a : Action) : List Action → Bool
  | [] => false
  | x :: rest => if x = a then true else occursB a rest

/-- `strictlyBefore a b t = true` when, scanning the trace, `a` is met
before any occurrence of `b`, and `b` does occur after that point: the
step `a` happens and the step `b` happens only later. -/
def strictlyBefore (a b : Action) : List Action → Bool
  | [] => false
  | x :: rest =>
    if x = a then occursB b rest
    else if x = b then false
    else strictlyBefore a b rest

/-- Number of occurrences of an action in a trace. -/
def countAction (a : Action) : List Action → Nat
  | [] => 0
  | x :: rest => (if x = a then 1 else 0) + countAction a rest

/-- Recognizes the `go h.notifyClients(...)` invocation. -/
def isPublish : Action → Bool
  | Action.publish _ _ _ => true
  | _ => false

/-- Number of publish invocations in a trace. -/
def countPublish (t : List Action) : Nat :=
  (t.filter isPublish).length

/-- The trace never registers a connection: the session never reaches the
Registered state. -/
def noRegister (t : List Action) : Prop :=
  ∀ room c, Action.register room c ∉ t

/-- One operation on a fixed (room, connection) pair: the registration
step (with the cancel function it stores) or the cleanup step. -/
inductive PairOp where
  | sub (k : CancelHandle)
  | unsub
  deriving DecidableEq, Repr

/-- Apply a sequence of operations on one (room, connection) pair to the
subscriber map, in order. -/
def applyPairOps (s : SubscriptionSet) (room : String) (c : Conn) :
    List PairOp → SubscriptionSet
  | [] => s
  | PairOp.sub k :: rest => applyPairOps (subscribe s room c k) room c rest
  | PairOp.unsub :: rest => applyPairOps (unsubscribe s room c) room c rest

/-- Membership after a sequence of operations, computed from the sequence
alone: a subscribe makes the pair present, an unsubscribe absent. -/
def specMembership (init : Bool) : List PairOp → Bool
  | [] => init
  | PairOp.sub _ :: rest => specMembership true rest
  | PairOp.unsub :: rest => specMembership false rest

/-- Any state-changing registry operation (registration or cleanup of any
session, on any room). -/
inductive RegistryOp where
  | doSubscribe (room : String) (c : Conn) (k : CancelHandle)
  | doUnsubscribe (room : String) (c : Conn)
  deriving DecidableEq, Repr

/-- Apply a sequence of registry operations in order.  Broadcasts are the
only other registry access and never change the state
(`notifyClients_state`), so this covers every mutation of `subscribers`
over the process lifetime. -/
def applyRegistryOps (s : SubscriptionSet) : List RegistryOp → SubscriptionSet
  | [] => s
  | RegistryOp.doSubscribe room c k :: rest => applyRegistryOps (subscribe s room c k) rest
  | RegistryOp.doUnsubscribe room c :: rest => applyRegistryOps (unsubscribe s room c) rest

/-- Subscribe request for room `r1` in which the room exists and the
upgrade succeeds. -/
def subEnvHappy : SubscribeEnv :=
  ⟨some "r1", StoreResult.found, true, 0, TerminationCause.clientDisconnect⟩

/-- Subscribe request for room `r1` in which the room exists and the
upgrade fails. -/
def subEnvUpgradeFail : SubscribeEnv :=
  ⟨some "r1", StoreResult.found, false, 0, TerminationCause.clientDisconnect⟩

/-- Subscribe request for room `r1` in which the Store reports the room
absent. -/
def subEnvNoRoom : SubscribeEnv :=
  ⟨some "r1", StoreResult.noRows, true, 0, TerminationCause.clientDisconnect⟩

/-- Create-message request in which the insert succeeds but writing the
HTTP response fails. -/
def cmEnvWriteFail : CreateMessageEnv :=
  ⟨some "r1", StoreResult.found, true, "hi", some "m1", true, false⟩

/-- Create-message request in which every step succeeds. -/
def cmEnvHappy : CreateMessageEnv :=
  ⟨some "r1", StoreResult.found, true, "hi", some "m1", true, true⟩

/-- Stored message whose reaction count is negative. -/
def storedNegMsg : StoredMessage :=
  ⟨"m1", "r1", "hello", -1, false⟩

/-- Remove-reaction request that finds `storedNegMsg`. -/
def rrEnvNeg : RemoveReactionEnv :=
  ⟨some "r1", some "m1", GetMessageResult.ok storedNegMsg, some (-2), true, true⟩

/-- Stored message whose reaction count is zero. -/
def storedZeroMsg : StoredMessage :=
  ⟨"m1", "r1", "hello", 0, false⟩

/-- Remove-reaction request that finds `storedZeroMsg`. -/
def rrEnvZero : RemoveReactionEnv :=
  ⟨some "r1", some "m1", GetMessageResult.ok storedZeroMsg, some 0, true, true⟩

/-- Registry with one room `r1` holding one connection. -/
def regOneSub : SubscriptionSet := [("r1", [(7, 70)])]

/-- Subscribe request for room `r1` that registers connection 7. -/
def subEnvC5 : SubscribeEnv :=
  ⟨some "r1", StoreResult.found, true, 7, TerminationCause.broadcastCancel⟩

/-- Registry with one room `r1` holding three connections. -/
def regThreeSubs : SubscriptionSet := [("r1", [(1, 11), (2, 22), (3, 33)])]

/-- Registry with one room `r1` whose connection set is empty. -/
def regEmptyRoom : SubscriptionSet := [("r1", [])]

/-- A message-created event for room `r1`. -/
def msgR1 : Message := ⟨MessageKindMessageCreated, ⟨"m1", "hi"⟩, "r1"⟩

/-- Send outcome in which only connection 2 fails. -/
def sendOkExcept2 : Conn → Bool := fun c => ! (c == 2)

/-- Send outcome in which every write succeeds. -/
def sendOkAll : Conn → Bool := fun _ => true

section MapLemmas

variable {α β : Type} [DecidableEq α]

theorem mapLookup_mapInsert_self (m : List (α × β)) (k : α) (v : β) :
    mapLookup (mapInsert m k v) k = some v := by
  induction m with
  | nil => simp [mapInsert, mapLookup]
  | cons p rest ih =>
    obtain ⟨a, b⟩ := p
    by_cases h : a = k
    · simp [mapInsert, h, mapLookup]
    · simp [mapInsert, h, mapLookup, ih]

theorem mapLookup_mapInsert_ne (m : List (α × β)) (k r : α) (v : β) (h : r ≠ k) :
    mapLookup (mapInsert m k v) r = mapLookup m r := by
  induction m with
  | nil =>
    have hne : ¬ (k = r) := fun hh => h hh.symm
    simp [mapInsert, mapLookup, hne]
  | cons p rest ih =>
    obtain ⟨a, b⟩ := p
    by_cases hak : a = k
    · subst hak
      have hne : ¬ (a = r) := fun hh => h hh.symm
      simp [mapInsert, mapLookup, hne]
    · simp [mapInsert, hak, mapLookup, ih]

theorem mapErase_sublist (m : List (α × β)) (k : α) :
    (mapErase m k).Sublist m := by
  induction m with
  | nil => simp [mapErase]
  | cons p rest ih =>
    obtain ⟨a, b⟩ := p
    by_cases h : a = k
    · subst h
      have hrw : mapErase ((a, b) :: rest) a = rest := by simp [mapErase]
      rw [hrw]
      exact (List.Sublist.refl rest).cons (a, b)
    · have hrw : mapErase ((a, b) :: rest) k = (a, b) :: mapErase rest k := by
        simp [mapErase, h]
      rw [hrw]
      exact ih.cons₂ (a, b)

theorem mapLookup_eq_none_iff (m : List (α × β)) (k : α) :
    mapLookup m k = none ↔ ∀ v, (k, v) ∉ m := by
  induction m with
  | nil => simp [mapLookup]
  | cons p rest ih =>
    obtain ⟨a, b⟩ := p
    by_cases hak : a = k
    · subst hak
      constructor
      · intro h
        simp [mapLookup] at h
      · intro h
        exact absurd (List.mem_cons_self (a, b) rest) (h b)
    · constructor
      · intro h v hv
        rcases List.mem_cons.mp hv with heq | hmem
        · exact hak (congrArg Prod.fst heq).symm
        · exact (ih.mp (by simpa [mapLookup, hak] using h)) v hmem
      · intro h
        have hrest : mapLookup rest k = none :=
          ih.mpr (fun v hv => h v (List.mem_cons_of_mem _ hv))
        simp [mapLookup, hak, hrest]

theorem mapLookup_mem (m : List (α × β)) (k : α) (v : β)
    (h : mapLookup m k = some v) : (k, v) ∈ m := by
  induction m with
  | nil => simp [mapLookup] at h
  | cons p rest ih =>
    obtain ⟨a, b⟩ := p
    by_cases hak : a = k
    · subst hak
      simp [mapLookup] at h
      simp [h]
    · simp [mapLookup, hak] at h
      exact List.mem_cons_of_mem _ (ih h)

theorem mem_keys_mapInsert (m : List (α × β)) (k : α) (v : β) (x : α)
    (h : x ∈ (mapInsert m k v).map Prod.fst) :
    x ∈ m.map Prod.fst ∨ x = k := by
  induction m with
  | nil =>
    simp [mapInsert] at h
    exact Or.inr h
  | cons p rest ih =>
    obtain ⟨a, b⟩ := p
    by_cases hak : a = k
    · subst hak
      have hrw : mapInsert ((a, b) :: rest) a v = (a, v) :: rest := by simp [mapInsert]
      rw [hrw, List.map_cons, List.mem_cons] at h
      rcases h with h | h
      · exact Or.inr h
      · exact Or.inl (by rw [List.map_cons, List.mem_cons]; exact Or.inr h)
    · have hrw : mapInsert ((a, b) :: rest) k v = (a, b) :: mapInsert rest k v := by
        simp [mapInsert, hak]
      rw [hrw, List.map_cons, List.mem_cons] at h
      rcases h with h | h
      · exact Or.inl (by rw [List.map_cons, List.mem_cons]; exact Or.inl h)
      · rcases ih h with h2 | h2
        · exact Or.inl (by rw [List.map_cons, List.mem_cons]; exact Or.inr h2)
        · exact Or.inr h2

theorem keysNodup_mapInsert (m : List (α × β)) (k : α) (v : β)
    (h : keysNodup m) : keysNodup (mapInsert m k v) := by
  induction m with
  | nil => simp [mapInsert, keysNodup]
  | cons p rest ih =>
    obtain ⟨a, b⟩ := p
    rw [keysNodup, List.map_cons, List.nodup_cons] at h
    by_cases hak : a = k
    · subst hak
      have hrw : mapInsert ((a, b) :: rest) a v = (a, v) :: rest := by simp [mapInsert]
      rw [keysNodup, hrw, List.map_cons, List.nodup_cons]
      exact h
    · have hrw : mapInsert ((a, b) :: rest) k v = (a, b) :: mapInsert rest k v := by
        simp [mapInsert, hak]
      have hrest : keysNodup (mapInsert rest k v) := ih h.2
      rw [keysNodup, hrw, List.map_cons, List.nodup_cons]
      refine ⟨?_, hrest⟩
      intro hx
      rcases mem_keys_mapInsert rest k v a hx with hmem | heq
      · exact h.1 hmem
      · exact hak heq

theorem keysNodup_mapErase (m : List (α × β)) (k : α)
    (h : keysNodup m) : keysNodup (mapErase m k) := by
  rw [keysNodup] at h ⊢
  exact h.sublist ((mapErase_sublist m k).map Prod.fst)

theorem mapLookup_mapErase_self (m : List (α × β)) (k : α)
    (h : keysNodup m) : mapLookup (mapErase m k) k = none := by
  induction m with
  | nil => simp [mapErase, mapLookup]
  | cons p rest ih =>
    obtain ⟨a, b⟩ := p
    rw [keysNodup, List.map_cons, List.nodup_cons] at h
    by_cases hak : a = k
    · subst hak
      have hrw : mapErase ((a, b) :: rest) a = rest := by simp [mapErase]
      rw [hrw, mapLookup_eq_none_iff]
      intro v hv
      exact h.1 (List.mem_map.mpr ⟨(a, v), hv, rfl⟩)
    · have hrw : mapErase ((a, b) :: rest) k = (a, b) :: mapErase rest k := by
        simp [mapErase, hak]
      rw [hrw]
      simpa [mapLookup, hak] using ih h.2

theorem mapLookup_mapErase_ne (m : List (α × β)) (k r : α) (h : r ≠ k) :
    mapLookup (mapErase m k) r = mapLookup m r := by
  induction m with
  | nil => simp [mapErase]
  | cons p rest ih =>
    obtain ⟨a, b⟩ := p
    by_cases hak : a = k
    · subst hak
      have hne : ¬ (a = r) := fun hh => h hh.symm
      simp [mapErase, mapLookup, hne]
    · simp [mapErase, hak, mapLookup, ih]

theorem mapErase_of_none (m : List (α × β)) (k : α)
    (h : mapLookup m k = none) : mapErase m k = m := by
  induction m with
  | nil => simp [mapErase]
  | cons p rest ih =>
    obtain ⟨a, b⟩ := p
    by_cases hak : a = k
    · simp [mapLookup, hak] at h
    · simp [mapLookup, hak] at h
      simp [mapErase, hak, ih h]

theorem mapInsert_lookup_self (m : List (α × β)) (k : α) (v : β)
    (h : mapLookup m k = some v) : mapInsert m k v = m := by
  induction m with
  | nil => simp [mapLookup] at h
  | cons p rest ih =>
    obtain ⟨a, b⟩ := p
    by_cases hak : a = k
    · subst hak
      simp [mapLookup] at h
      simp [mapInsert, h]
    · simp [mapLookup, hak] at h
      simp [mapInsert, hak, ih h]

end MapLemmas

section MemInsert

variable {α β : Type} [DecidableEq α]

theorem mem_mapInsert (m : List (α × β)) (k : α) (v : β) (p : α × β)
    (h : p ∈ mapInsert m k v) : p ∈ m ∨ p = (k, v) := by
  induction m with
  | nil =>
    simp [mapInsert] at h
    exact Or.inr h
  | cons q rest ih =>
    obtain ⟨a, b⟩ := q
    by_cases hak : a = k
    · subst hak
      have hrw : mapInsert ((a, b) :: rest) a v = (a, v) :: rest := by simp [mapInsert]
      rw [hrw, List.mem_cons] at h
      rcases h with h | h
      · exact Or.inr h
      · exact Or.inl (List.mem_cons_of_mem _ h)
    · have hrw : mapInsert ((a, b) :: rest) k v = (a, b) :: mapInsert rest k v := by
        simp [mapInsert, hak]
      rw [hrw, List.mem_cons] at h
      rcases h with h | h
      · exact Or.inl (by rw [h]; exact List.mem_cons_self _ _)
      · rcases ih h with h2 | h2
        · exact Or.inl (List.mem_cons_of_mem _ h2)
        · exact Or.inr h2

end MemInsert

section RegistryLemmas

theorem WF_subscribe (s : SubscriptionSet) (room : String) (c : Conn) (k : CancelHandle)
    (h : WF s) : WF (subscribe s room c k) := by
  rw [subscribe]
  cases hl : mapLookup s room with
  | none =>
    intro p hp
    rcases mem_mapInsert s room [(c, k)] p hp with hmem | heq
    · exact h p hmem
    · rw [heq]
      simp [keysNodup]
  | some inner =>
    intro p hp
    rcases mem_mapInsert s room (mapInsert inner c k) p hp with hmem | heq
    · exact h p hmem
    · rw [heq]
      exact keysNodup_mapInsert inner c k (h (room, inner) (mapLookup_mem s room inner hl))

theorem WF_unsubscribe (s : SubscriptionSet) (room : String) (c : Conn)
    (h : WF s) : WF (unsubscribe s room c) := by
  rw [unsubscribe]
  cases hl : mapLookup s room with
  | none => exact h
  | some inner =>
    intro p hp
    rcases mem_mapInsert s room (mapErase inner c) p hp with hmem | heq
    · exact h p hmem
    · rw [heq]
      exact keysNodup_mapErase inner c (h (room, inner) (mapLookup_mem s room inner hl))

theorem memConn_subscribe_self (s : SubscriptionSet) (room : String) (c : Conn)
    (k : CancelHandle) : memConn (subscribe s room c k) room c = true := by
  rw [subscribe]
  cases hl : mapLookup s room with
  | none =>
    rw [memConn, mapLookup_mapInsert_self]
    simp [mapLookup]
  | some inner =>
    rw [memConn, mapLookup_mapInsert_self]
    simp [mapLookup_mapInsert_self]

theorem memConn_unsubscribe_self (s : SubscriptionSet) (room : String) (c : Conn)
    (h : WF s) : memConn (unsubscribe s room c) room c = false := by
  rw [unsubscribe]
  cases hl : mapLookup s room with
  | none => simp [memConn, hl]
  | some inner =>
    rw [memConn, mapLookup_mapInsert_self]
    show (mapLookup (mapErase inner c) c).isSome = false
    rw [mapLookup_mapErase_self inner c (h (room, inner) (mapLookup_mem s room inner hl))]
    rfl

theorem memConn_unsubscribe_ne (s : SubscriptionSet) (room r : String) (c c2 : Conn)
    (h : r ≠ room) : memConn (unsubscribe s room c) r c2 = memConn s r c2 := by
  rw [unsubscribe]
  cases hl : mapLookup s room with
  | none => rfl
  | some inner =>
    rw [memConn, mapLookup_mapInsert_ne s room r (mapErase inner c) h, memConn]

theorem hasRoom_subscribe (s : SubscriptionSet) (room r : String) (c : Conn)
    (k : CancelHandle) (h : hasRoom s r = true) :
    hasRoom (subscribe s room c k) r = true := by
  by_cases hr : r = room
  · subst hr
    rw [subscribe]
    cases mapLookup s r with
    | none => rw [hasRoom, mapLookup_mapInsert_self]; rfl
    | some inner => rw [hasRoom, mapLookup_mapInsert_self]; rfl
  · rw [subscribe]
    cases mapLookup s room with
    | none => rw [hasRoom, mapLookup_mapInsert_ne s room r _ hr]; exact h
    | some inner => rw [hasRoom, mapLookup_mapInsert_ne s room r _ hr]; exact h

theorem hasRoom_unsubscribe (s : SubscriptionSet) (room r : String) (c : Conn)
    (h : hasRoom s r = true) : hasRoom (unsubscribe s room c) r = true := by
  rw [unsubscribe]
  cases mapLookup s room with
  | none => exact h
  | some inner =>
    by_cases hr : r = room
    · subst hr
      rw [hasRoom, mapLookup_mapInsert_self]
      rfl
    · rw [hasRoom, mapLookup_mapInsert_ne s room r _ hr]
      exact h

end RegistryLemmas

section BroadcastLemmas

theorem broadcastLoop_fst (payload : Json) (sendOk : Conn → Bool)
    (l : List (Conn × CancelHandle)) :
    (broadcastLoop payload sendOk l).1 =
      (l.filter (fun p => sendOk p.1)).map (fun p => (p.1, payload)) := by
  induction l with
  | nil => simp [broadcastLoop]
  | cons p rest ih =>
    obtain ⟨c, k⟩ := p
    cases h : sendOk c with
    | true => simp [broadcastLoop, h, List.filter_cons, ih]
    | false => simp [broadcastLoop, h, List.filter_cons, ih]

theorem broadcastLoop_snd (payload : Json) (sendOk : Conn → Bool)
    (l : List (Conn × CancelHandle)) :
    (broadcastLoop payload sendOk l).2 = l.filter (fun p => !sendOk p.1) := by
  induction l with
  | nil => simp [broadcastLoop]
  | cons p rest ih =>
    obtain ⟨c, k⟩ := p
    cases h : sendOk c with
    | true => simp [broadcastLoop, h, List.filter_cons, ih]
    | false => simp [broadcastLoop, h, List.filter_cons, ih]

theorem notifyClients_state (s : SubscriptionSet) (msg : Message) (sendOk : Conn → Bool) :
    (notifyClients s msg sendOk).1 = s := by
  rw [notifyClients]
  cases mapLookup s msg.RoomID with
  | none => rfl
  | some inner =>
    by_cases h : inner.length = 0
    · simp [h]
    · simp [h]

theorem notifyClients_parts (s : SubscriptionSet) (msg : Message) (sendOk : Conn → Bool)
    (inner : List (Conn × CancelHandle))
    (hin : mapLookup s msg.RoomID = some inner) (hne : inner ≠ []) :
    (notifyClients s msg sendOk).2.1 =
      (inner.filter (fun p => sendOk p.1)).map (fun p => (p.1, encodeMessage msg)) ∧
    (notifyClients s msg sendOk).2.2 = inner.filter (fun p => !sendOk p.1) := by
  have hlen : ¬ (inner.length = 0) := by
    intro h
    exact hne (List.length_eq_zero.mp h)
  rw [notifyClients, hin]
  simp [hlen, broadcastLoop_fst, broadcastLoop_snd]

theorem notifyClients_no_attempt (s : SubscriptionSet) (msg : Message)
    (sendOk : Conn → Bool) (c : Conn) (h : ∀ r, memConn s r c = false) :
    (∀ p ∈ (notifyClients s msg sendOk).2.1, p.1 ≠ c) ∧
    (∀ p ∈ (notifyClients s msg sendOk).2.2, p.1 ≠ c) := by
  cases hl : mapLookup s msg.RoomID with
  | none =>
    rw [notifyClients, hl]
    simp
  | some inner =>
    by_cases hnil : inner = []
    · subst hnil
      rw [notifyClients, hl]
      simp
    · obtain ⟨hs, hc⟩ := notifyClients_parts s msg sendOk inner hl hnil
      have hnone : mapLookup inner c = none := by
        have hm := h msg.RoomID
        rw [memConn, hl] at hm
        have hm2 : (mapLookup inner c).isSome = false := hm
        cases hmc : mapLookup inner c with
        | none => rfl
        | some v =>
          rw [hmc] at hm2
          simp at hm2
      have hmem : ∀ v, (c, v) ∉ inner := (mapLookup_eq_none_iff inner c).mp hnone
      constructor
      · intro p hp
        rw [hs] at hp
        rcases List.mem_map.mp hp with ⟨q, hq, hqe⟩
        intro hpc
        have hqmem : q ∈ inner := (List.mem_filter.mp hq).1
        have hq1 : q.1 = c := by
          rw [← hqe] at hpc
          simpa using hpc
        have hpair : q = (c, q.2) := by
          rw [← hq1]
        rw [hpair] at hqmem
        exact hmem q.2 hqmem
      · intro p hp
        rw [hc] at hp
        intro hpc
        have hqmem : p ∈ inner := List.mem_of_mem_filter hp
        have hpair : p = (c, p.2) := by
          rw [← hpc]
        rw [hpair] at hqmem
        exact hmem p.2 hqmem

end BroadcastLemmas

section SequenceLemmas

theorem applyPairOps_memConn (room : String) (c : Conn) (ops : List PairOp) :
    ∀ s : SubscriptionSet, WF s →
      memConn (applyPairOps s room c ops) room c =
        specMembership (memConn s room c) ops := by
  induction ops with
  | nil =>
    intro s _
    rfl
  | cons op rest ih =>
    intro s hwf
    cases op with
    | sub k =>
      rw [applyPairOps, specMembership,
        ih (subscribe s room c k) (WF_subscribe s room c k hwf)]
      rw [show specMembership true rest =
        specMembership (memConn (subscribe s room c k) room c) rest from by
          rw [memConn_subscribe_self]]
    | unsub =>
      rw [applyPairOps, specMembership,
        ih (unsubscribe s room c) (WF_unsubscribe s room c hwf)]
      rw [show specMembership false rest =
        specMembership (memConn (unsubscribe s room c) room c) rest from by
          rw [memConn_unsubscribe_self s room c hwf]]

theorem hasRoom_applyRegistryOps (ops : List RegistryOp) :
    ∀ s : SubscriptionSet, ∀ room : String, hasRoom s room = true →
      hasRoom (applyRegistryOps s ops) room = true := by
  induction ops with
  | nil =>
    intro s room h
    exact h
  | cons op rest ih =>
    intro s room h
    cases op with
    | doSubscribe r2 c k =>
      rw [applyRegistryOps]
      exact ih (subscribe s r2 c k) room (hasRoom_subscribe s r2 room c k h)
    | doUnsubscribe r2 c =>
      rw [applyRegistryOps]
      exact ih (unsubscribe s r2 c) room (hasRoom_unsubscribe s r2 room c h)

end SequenceLemmas

theorem honlyRegOneSub : ∀ r, r ≠ "r1" → memConn regOneSub r 7 = false := by
  intro r hr
  have hne : ¬ ("r1" = r) := fun hh => hr hh.symm
  simp [regOneSub, memConn, mapLookup, hne]

section Claims

/-- C1 counterexample: in the run where the room exists and the upgrade
succeeds, both the upgrade and the `GetRoom` call occur, but the upgrade
does not precede the Store call — `handleSubscribeToRoom` validates the
room first and upgrades afterwards, refuting the claimed
Connecting → Validating order. -/
theorem c1_counterexample :
    occursB Action.upgrade (subscribeTrace subEnvHappy) = true ∧
    occursB (Action.storeGetRoom "r1") (subscribeTrace subEnvHappy) = true ∧
    strictlyBefore Action.upgrade (Action.storeGetRoom "r1")
      (subscribeTrace subEnvHappy) = false := by
  decide

/-- C1 amended: for every subscribe request whose room id parses, the
session performs Validating before Connecting — whenever the upgrade is
attempted, the `GetRoom` call strictly precedes it; on handshake failure
the handler responds with a client error (400) and stops without ever
registering; when the upgrade succeeds the session registers only after
both the Store call and the upgrade. -/
theorem c1_validate_then_upgrade (env : SubscribeEnv) (room : String)
    (hparse : env.parsedRoom = some room) :
    (occursB Action.upgrade (subscribeTrace env) = true →
      strictlyBefore (Action.storeGetRoom room) Action.upgrade
        (subscribeTrace env) = true) ∧
    (env.getRoom = StoreResult.found → env.upgradeOk = false →
      subscribeTrace env =
        [Action.storeGetRoom room, Action.upgrade,
         Action.respondError 400 "failed to upgrade connection"] ∧
      noRegister (subscribeTrace env)) ∧
    (env.getRoom = StoreResult.found → env.upgradeOk = true →
      subscribeTrace env =
        [Action.storeGetRoom room, Action.upgrade,
         Action.register room env.conn, Action.waitDone,
         Action.unregister room env.conn, Action.closeConn env.conn]) := by
  refine ⟨?_, ?_, ?_⟩
  · intro hocc
    cases hg : env.getRoom with
    | noRows => simp [subscribeTrace, hparse, hg, occursB] at hocc
    | otherErr => simp [subscribeTrace, hparse, hg, occursB] at hocc
    | found =>
      cases hu : env.upgradeOk with
      | true => simp [subscribeTrace, hparse, hg, hu, strictlyBefore, occursB]
      | false => simp [subscribeTrace, hparse, hg, hu, strictlyBefore, occursB]
  · intro hg hu
    constructor
    · simp [subscribeTrace, hparse, hg, hu]
    · intro r c
      simp [subscribeTrace, hparse, hg, hu]
  · intro hg hu
    simp [subscribeTrace, hparse, hg, hu]

/-- C1 witness: the amended theorem applied to the failed-upgrade run. -/
theorem c1_validate_then_upgrade_witness :
    subEnvUpgradeFail.parsedRoom = some "r1" ∧
    ((occursB Action.upgrade (subscribeTrace subEnvUpgradeFail) = true →
      strictlyBefore (Action.storeGetRoom "r1") Action.upgrade
        (subscribeTrace subEnvUpgradeFail) = true) ∧
    (subEnvUpgradeFail.getRoom = StoreResult.found →
     subEnvUpgradeFail.upgradeOk = false →
      subscribeTrace subEnvUpgradeFail =
        [Action.storeGetRoom "r1", Action.upgrade,
         Action.respondError 400 "failed to upgrade connection"] ∧
      noRegister (subscribeTrace subEnvUpgradeFail)) ∧
    (subEnvUpgradeFail.getRoom = StoreResult.found →
     subEnvUpgradeFail.upgradeOk = true →
      subscribeTrace subEnvUpgradeFail =
        [Action.storeGetRoom "r1", Action.upgrade,
         Action.register "r1" subEnvUpgradeFail.conn, Action.waitDone,
         Action.unregister "r1" subEnvUpgradeFail.conn,
         Action.closeConn subEnvUpgradeFail.conn])) :=
  ⟨by decide, c1_validate_then_upgrade subEnvUpgradeFail "r1" (by decide)⟩

/-- C2 counterexample: in the run where the insert succeeds and the
response write fails, `handleCreateRoomMessage` returns before spawning
`notifyClients`, so no publish happens — refuting the claim that a
failure while writing the response does not prevent the publish. -/
theorem c2_counterexample :
    cmEnvWriteFail.insertResult = some "m1" ∧
    countPublish (createMessageTrace cmEnvWriteFail) = 0 := by
  decide

/-- C2 amended: when the insert succeeds and the response marshal and
write also succeed, the publish happens exactly once, carries the new
message id and the request text, and occurs strictly after the 201
response is written; but when the marshal or the write fails, the handler
returns without publishing. -/
theorem c2_publish_after_response (env : CreateMessageEnv) (room mid : String)
    (hparse : env.parsedRoom = some room) (hg : env.getRoom = StoreResult.found)
    (hb : env.bodyOk = true) (hins : env.insertResult = some mid) :
    (env.marshalOk = true → env.writeOk = true →
      createMessageTrace env =
        [Action.storeGetRoom room,
         Action.storeInsertMessage room env.bodyMessage,
         Action.writeResponse 201,
         Action.publish room mid env.bodyMessage] ∧
      countPublish (createMessageTrace env) = 1 ∧
      strictlyBefore (Action.writeResponse 201)
        (Action.publish room mid env.bodyMessage) (createMessageTrace env) = true) ∧
    ((env.marshalOk = false ∨ env.writeOk = false) →
      countPublish (createMessageTrace env) = 0) := by
  constructor
  · intro hm hw
    refine ⟨?_, ?_, ?_⟩
    · simp [createMessageTrace, hparse, hg, hb, hins, hm, hw]
    · simp [createMessageTrace, hparse, hg, hb, hins, hm, hw,
        countPublish, isPublish]
    · simp [createMessageTrace, hparse, hg, hb, hins, hm, hw,
        strictlyBefore, occursB]
  · intro hfail
    rcases hfail with hm | hw
    · simp [createMessageTrace, hparse, hg, hb, hins, hm,
        countPublish, isPublish]
    · cases hm : env.marshalOk with
      | true =>
        simp [createMessageTrace, hparse, hg, hb, hins, hm, hw,
          countPublish, isPublish]
      | false =>
        simp [createMessageTrace, hparse, hg, hb, hins, hm,
          countPublish, isPublish]

/-- C2 witness: the amended theorem applied to the all-success run. -/
theorem c2_publish_after_response_witness :
    cmEnvHappy.parsedRoom = some "r1" ∧
    cmEnvHappy.getRoom = StoreResult.found ∧
    cmEnvHappy.bodyOk = true ∧
    cmEnvHappy.insertResult = some "m1" ∧
    ((cmEnvHappy.marshalOk = true → cmEnvHappy.writeOk = true →
      createMessageTrace cmEnvHappy =
        [Action.storeGetRoom "r1",
         Action.storeInsertMessage "r1" cmEnvHappy.bodyMessage,
         Action.writeResponse 201,
         Action.publish "r1" "m1" cmEnvHappy.bodyMessage] ∧
      countPublish (createMessageTrace cmEnvHappy) = 1 ∧
      strictlyBefore (Action.writeResponse 201)
        (Action.publish "r1" "m1" cmEnvHappy.bodyMessage)
        (createMessageTrace cmEnvHappy) = true) ∧
    ((cmEnvHappy.marshalOk = false ∨ cmEnvHappy.writeOk = false) →
      countPublish (createMessageTrace cmEnvHappy) = 0)) :=
  ⟨by decide, by decide, by decide, by decide,
   c2_publish_after_response cmEnvHappy "r1" "m1"
     (by decide) (by decide) (by decide) (by decide)⟩

/-- C7: for every subscribe request whose room id parses, an `ErrNoRows`
result from `GetRoom` yields exactly the not-found response and the
session never registers, and any other `GetRoom` error yields exactly the
internal-error response and the session never registers. -/
theorem c7_validation_failures (env : SubscribeEnv) (room : String)
    (hparse : env.parsedRoom = some room) :
    (env.getRoom = StoreResult.noRows →
      subscribeTrace env =
        [Action.storeGetRoom room, Action.respondError 404 "room not found"] ∧
      noRegister (subscribeTrace env)) ∧
    (env.getRoom = StoreResult.otherErr →
      subscribeTrace env =
        [Action.storeGetRoom room, Action.respondError 500 "something went wrong"] ∧
      noRegister (subscribeTrace env)) := by
  constructor
  · intro hg
    constructor
    · simp [subscribeTrace, hparse, hg]
    · intro r c
      simp [subscribeTrace, hparse, hg]
  · intro hg
    constructor
    · simp [subscribeTrace, hparse, hg]
    · intro r c
      simp [subscribeTrace, hparse, hg]

/-- C7 witness: the theorem applied to the missing-room run. -/
theorem c7_validation_failures_witness :
    subEnvNoRoom.parsedRoom = some "r1" ∧
    ((subEnvNoRoom.getRoom = StoreResult.noRows →
      subscribeTrace subEnvNoRoom =
        [Action.storeGetRoom "r1", Action.respondError 404 "room not found"] ∧
      noRegister (subscribeTrace subEnvNoRoom)) ∧
    (subEnvNoRoom.getRoom = StoreResult.otherErr →
      subscribeTrace subEnvNoRoom =
        [Action.storeGetRoom "r1", Action.respondError 500 "something went wrong"] ∧
      noRegister (subscribeTrace subEnvNoRoom))) :=
  ⟨by decide, c7_validation_failures subEnvNoRoom "r1" (by decide)⟩

/-- C8: broadcasting to a room whose key is absent, or whose connection
set is empty, performs no delivery attempt, invokes no cancel function and
leaves the registry state unchanged; `notifyClients` has no error result
at all, so it also raises no error. -/
theorem c8_broadcast_empty_noop (s : SubscriptionSet) (msg : Message)
    (sendOk : Conn → Bool)
    (h : mapLookup s msg.RoomID = none ∨ mapLookup s msg.RoomID = some []) :
    notifyClients s msg sendOk = (s, [], []) := by
  rcases h with h | h
  · rw [notifyClients, h]
  · rw [notifyClients, h]
    simp

/-- C8 witness: the theorem applied to a registry without the target room
key and to one whose room has an empty connection set. -/
theorem c8_broadcast_empty_noop_witness :
    mapLookup regEmptyRoom msgR1.RoomID = some [] ∧
    notifyClients regEmptyRoom msgR1 sendOkAll = (regEmptyRoom, [], []) :=
  ⟨by decide, c8_broadcast_empty_noop regEmptyRoom msgR1 sendOkAll (Or.inr (by decide))⟩

/-- C10 counterexample: on a stored message whose reaction count is -1
(not positive), `handleRemoveReactionFromMessage` still calls the Store's
decrement — refuting the claim that the decrement is only invoked when the
observed count is positive. -/
theorem c10_counterexample :
    rrEnvNeg.getMessage = GetMessageResult.ok storedNegMsg ∧
    ¬ (0 < storedNegMsg.ReactionCount) ∧
    occursB (Action.storeRemoveReaction "m1") (removeReactionTrace rrEnvNeg) = true := by
  decide

/-- C10 amended: for every remove-reaction request that reaches the
message lookup successfully with a matching room, a stored reaction count
of zero yields a 204 response without calling the decrement, and the
decrement is only ever invoked when the observed count is nonzero. -/
theorem c10_no_decrement_at_zero (env : RemoveReactionEnv) (room mid : String)
    (m : StoredMessage) (hr : env.parsedRoom = some room)
    (hm : env.parsedMessage = some mid)
    (hg : env.getMessage = GetMessageResult.ok m) (hmatch : m.RoomID = room) :
    (m.ReactionCount = 0 →
      removeReactionTrace env = [Action.storeGetMessage mid, Action.writeResponse 204] ∧
      occursB (Action.storeRemoveReaction mid) (removeReactionTrace env) = false) ∧
    (occursB (Action.storeRemoveReaction mid) (removeReactionTrace env) = true →
      m.ReactionCount ≠ 0) := by
  constructor
  · intro hc
    constructor
    · simp [removeReactionTrace, hr, hm, hg, hmatch, hc]
    · simp [removeReactionTrace, hr, hm, hg, hmatch, hc, occursB]
  · intro hocc
    intro hc
    rw [removeReactionTrace] at hocc
    simp [hr, hm, hg, hmatch, hc, occursB] at hocc

/-- C10 witness: the amended theorem applied to the zero-count run. -/
theorem c10_no_decrement_at_zero_witness :
    rrEnvZero.parsedRoom = some "r1" ∧
    rrEnvZero.parsedMessage = some "m1" ∧
    rrEnvZero.getMessage = GetMessageResult.ok storedZeroMsg ∧
    storedZeroMsg.RoomID = "r1" ∧
    ((storedZeroMsg.ReactionCount = 0 →
      removeReactionTrace rrEnvZero =
        [Action.storeGetMessage "m1", Action.writeResponse 204] ∧
      occursB (Action.storeRemoveReaction "m1") (removeReactionTrace rrEnvZero) = false) ∧
    (occursB (Action.storeRemoveReaction "m1") (removeReactionTrace rrEnvZero) = true →
      storedZeroMsg.ReactionCount ≠ 0)) :=
  ⟨by decide, by decide, by decide, by decide,
   c10_no_decrement_at_zero rrEnvZero "r1" "m1" storedZeroMsg
     (by decide) (by decide) (by decide) (by decide)⟩

/-- C3: when the message-created event built by `handleCreateRoomMessage`
(kind `message_created`, value carrying the new id and text, room id in
the serialization-excluded field) is broadcast, every delivered payload is
exactly the JSON object with top-level fields `kind` and `value`, the
value holding only `id` and `message`; no `room_id` field is serialized;
and when every send succeeds, each connection subscribed to the room at
broadcast time receives that object. -/
theorem c3_delivered_payload (s : SubscriptionSet) (mid mtext : String)
    (sendOk : Conn → Bool) (msg : Message) (inner : List (Conn × CancelHandle))
    (hkind : msg.Kind = MessageKindMessageCreated)
    (hval : msg.Value = MessageMessageCreated.mk mid mtext)
    (hin : mapLookup s msg.RoomID = some inner) :
    (∀ p ∈ (notifyClients s msg sendOk).2.1,
      p.2 = Json.obj [("kind", Json.str "message_created"),
        ("value", Json.obj [("id", Json.str mid), ("message", Json.str mtext)])] ∧
      "room_id" ∉ jsonObjKeys p.2) ∧
    ((∀ q ∈ inner, sendOk q.1 = true) →
      (notifyClients s msg sendOk).2.1 =
        inner.map (fun q => (q.1,
          Json.obj [("kind", Json.str "message_created"),
            ("value", Json.obj [("id", Json.str mid), ("message", Json.str mtext)])]))) := by
  have henc : encodeMessage msg =
      Json.obj [("kind", Json.str "message_created"),
        ("value", Json.obj [("id", Json.str mid), ("message", Json.str mtext)])] := by
    rw [encodeMessage, encodeMessageMessageCreated, hkind, hval, MessageKindMessageCreated]
  by_cases hnil : inner = []
  · subst hnil
    rw [notifyClients, hin]
    constructor
    · intro p hp
      simp at hp
    · intro _
      simp
  · obtain ⟨hs, _⟩ := notifyClients_parts s msg sendOk inner hin hnil
    constructor
    · intro p hp
      rw [hs] at hp
      rcases List.mem_map.mp hp with ⟨q, _, hqe⟩
      constructor
      · rw [← hqe]
        simpa using henc
      · rw [← hqe]
        simp [henc, jsonObjKeys]
    · intro hall
      rw [hs]
      have hfil : inner.filter (fun p => sendOk p.1) = inner :=
        List.filter_eq_self.mpr (fun a ha => hall a ha)
      rw [hfil, henc]

/-- C3 witness: the theorem applied to a one-subscriber registry with
every send succeeding. -/
theorem c3_delivered_payload_witness :
    msgR1.Kind = MessageKindMessageCreated ∧
    msgR1.Value = MessageMessageCreated.mk "m1" "hi" ∧
    mapLookup regOneSub msgR1.RoomID = some [(7, 70)] ∧
    ((∀ p ∈ (notifyClients regOneSub msgR1 sendOkAll).2.1,
      p.2 = Json.obj [("kind", Json.str "message_created"),
        ("value", Json.obj [("id", Json.str "m1"), ("message", Json.str "hi")])] ∧
      "room_id" ∉ jsonObjKeys p.2) ∧
    ((∀ q ∈ [(7, 70)], sendOkAll q.1 = true) →
      (notifyClients regOneSub msgR1 sendOkAll).2.1 =
        [(7, 70)].map (fun q => (q.1,
          Json.obj [("kind", Json.str "message_created"),
            ("value", Json.obj [("id", Json.str "m1"), ("message", Json.str "hi")])])))) :=
  ⟨rfl, rfl, rfl,
   c3_delivered_payload regOneSub "m1" "hi" sendOkAll msgR1 [(7, 70)] rfl rfl rfl⟩

/-- C4: broadcasting to a room whose subscribers are `l1 ++ (f, kf) :: l2`
where exactly the connection `f` fails its send still delivers the encoded
event to every connection of `l1` and `l2` (the other N-1), invokes
exactly the failed connection's cancel function (once), and leaves the
registry unchanged — `notifyClients` removes no entry and has no error
result to raise. -/
theorem c4_partial_failure_isolation (s : SubscriptionSet) (msg : Message)
    (sendOk : Conn → Bool) (l1 l2 : List (Conn × CancelHandle))
    (f : Conn) (kf : CancelHandle)
    (hin : mapLookup s msg.RoomID = some (l1 ++ (f, kf) :: l2))
    (h1 : ∀ p ∈ l1, sendOk p.1 = true) (h2 : ∀ p ∈ l2, sendOk p.1 = true)
    (hf : sendOk f = false) :
    (notifyClients s msg sendOk).1 = s ∧
    (notifyClients s msg sendOk).2.1 =
      (l1 ++ l2).map (fun p => (p.1, encodeMessage msg)) ∧
    (notifyClients s msg sendOk).2.2 = [(f, kf)] := by
  obtain ⟨hs, hc⟩ := notifyClients_parts s msg sendOk (l1 ++ (f, kf) :: l2) hin (by simp)
  refine ⟨notifyClients_state s msg sendOk, ?_, ?_⟩
  · rw [hs]
    have hf1 : l1.filter (fun p => sendOk p.1) = l1 :=
      List.filter_eq_self.mpr (fun a ha => h1 a ha)
    have hf2 : l2.filter (fun p => sendOk p.1) = l2 :=
      List.filter_eq_self.mpr (fun a ha => h2 a ha)
    simp [List.filter_append, List.filter_cons, hf, hf1, hf2]
  · rw [hc]
    have hf1 : l1.filter (fun p => !sendOk p.1) = [] := by
      rw [List.filter_eq_nil_iff]
      intro a ha
      simp [h1 a ha]
    have hf2 : l2.filter (fun p => !sendOk p.1) = [] := by
      rw [List.filter_eq_nil_iff]
      intro a ha
      simp [h2 a ha]
    simp [List.filter_append, List.filter_cons, hf, hf1, hf2]

/-- C4 witness: the theorem applied to a three-subscriber room where only
connection 2 fails. -/
theorem c4_partial_failure_isolation_witness :
    mapLookup regThreeSubs msgR1.RoomID = some ([(1, 11)] ++ (2, 22) :: [(3, 33)]) ∧
    (∀ p ∈ ([(1, 11)] : List (Conn × CancelHandle)), sendOkExcept2 p.1 = true) ∧
    (∀ p ∈ ([(3, 33)] : List (Conn × CancelHandle)), sendOkExcept2 p.1 = true) ∧
    sendOkExcept2 2 = false ∧
    ((notifyClients regThreeSubs msgR1 sendOkExcept2).1 = regThreeSubs ∧
    (notifyClients regThreeSubs msgR1 sendOkExcept2).2.1 =
      (([(1, 11)] ++ [(3, 33)]) : List (Conn × CancelHandle)).map
        (fun p => (p.1, encodeMessage msgR1)) ∧
    (notifyClients regThreeSubs msgR1 sendOkExcept2).2.2 = [(2, 22)]) :=
  ⟨by decide, by decide, by decide, by decide,
   c4_partial_failure_isolation regThreeSubs msgR1 sendOkExcept2
     [(1, 11)] [(3, 33)] 2 22 (by decide) (by decide) (by decide) (by decide)⟩

/-- C5: a session that reached Registered performs the deregistration
exactly once, whichever cause unblocks `<-ctx.Done()` (the cleanup code
does not inspect the cause); after the cleanup `unsubscribe` runs, the
connection — assumed registered in no other room, as each handler call
registers its fresh connection in exactly one room — is absent from every
room's subscriber set, and no subsequent broadcast attempts a delivery to
it (it appears neither among the successful sends nor among the
cancellations). -/
theorem c5_cleanup_exactly_once (env : SubscribeEnv) (room : String)
    (s : SubscriptionSet) (hparse : env.parsedRoom = some room)
    (hfound : env.getRoom = StoreResult.found) (hupg : env.upgradeOk = true)
    (hwf : WF s) (honly : ∀ r, r ≠ room → memConn s r env.conn = false) :
    (∀ cause : TerminationCause,
      countAction (Action.unregister room env.conn)
        (subscribeTrace ⟨env.parsedRoom, env.getRoom, env.upgradeOk, env.conn, cause⟩) = 1) ∧
    (∀ r, memConn (unsubscribe s room env.conn) r env.conn = false) ∧
    (∀ msg sendOk,
      (∀ p ∈ (notifyClients (unsubscribe s room env.conn) msg sendOk).2.1,
        p.1 ≠ env.conn) ∧
      (∀ p ∈ (notifyClients (unsubscribe s room env.conn) msg sendOk).2.2,
        p.1 ≠ env.conn)) := by
  have habs : ∀ r, memConn (unsubscribe s room env.conn) r env.conn = false := by
    intro r
    by_cases hr : r = room
    · subst hr
      exact memConn_unsubscribe_self s r env.conn hwf
    · rw [memConn_unsubscribe_ne s room r env.conn env.conn hr]
      exact honly r hr
  refine ⟨?_, habs, ?_⟩
  · intro cause
    simp [subscribeTrace, hparse, hfound, hupg, countAction]
  · intro msg sendOk
    exact notifyClients_no_attempt (unsubscribe s room env.conn) msg sendOk env.conn habs

/-- C5 witness: the theorem applied to a session on room `r1` with
connection 7, starting from the registry in which 7 is subscribed to
`r1` only. -/
theorem c5_cleanup_exactly_once_witness :
    subEnvC5.parsedRoom = some "r1" ∧
    subEnvC5.getRoom = StoreResult.found ∧
    subEnvC5.upgradeOk = true ∧
    WF regOneSub ∧
    (∀ r, r ≠ "r1" → memConn regOneSub r subEnvC5.conn = false) ∧
    ((∀ cause : TerminationCause,
      countAction (Action.unregister "r1" subEnvC5.conn)
        (subscribeTrace ⟨subEnvC5.parsedRoom, subEnvC5.getRoom, subEnvC5.upgradeOk,
          subEnvC5.conn, cause⟩) = 1) ∧
    (∀ r, memConn (unsubscribe regOneSub "r1" subEnvC5.conn) r subEnvC5.conn = false) ∧
    (∀ msg sendOk,
      (∀ p ∈ (notifyClients (unsubscribe regOneSub "r1" subEnvC5.conn) msg sendOk).2.1,
        p.1 ≠ subEnvC5.conn) ∧
      (∀ p ∈ (notifyClients (unsubscribe regOneSub "r1" subEnvC5.conn) msg sendOk).2.2,
        p.1 ≠ subEnvC5.conn))) :=
  ⟨by decide, by decide, by decide, by decide, honlyRegOneSub,
   c5_cleanup_exactly_once subEnvC5 "r1" regOneSub
     (by decide) (by decide) (by decide) (by decide) honlyRegOneSub⟩

/-- C6: for every sequence of Subscribe and Unsubscribe operations on one
(room, connection) pair, starting from any well-formed registry state, the
resulting membership equals the sequence folded in order (subscribe makes
the pair present, unsubscribe absent); and Unsubscribe when the entry is
absent — including a room key that was never created — leaves the whole
state unchanged and raises no error. -/
theorem c6_sequence_membership (s : SubscriptionSet) (room : String) (c : Conn)
    (ops : List PairOp) (hwf : WF s) :
    memConn (applyPairOps s room c ops) room c =
      specMembership (memConn s room c) ops ∧
    (memConn s room c = false → unsubscribe s room c = s) := by
  constructor
  · exact applyPairOps_memConn room c ops s hwf
  · intro habs
    rw [unsubscribe]
    cases hl : mapLookup s room with
    | none => rfl
    | some inner =>
      rw [memConn, hl] at habs
      have habs2 : (mapLookup inner c).isSome = false := habs
      have hnone : mapLookup inner c = none := by
        cases hmc : mapLookup inner c with
        | none => rfl
        | some v =>
          rw [hmc] at habs2
          simp at habs2
      show mapInsert s room (mapErase inner c) = s
      rw [mapErase_of_none inner c hnone]
      exact mapInsert_lookup_self s room inner hl

/-- C6 witness: the theorem applied to the empty registry and the
sequence subscribe, unsubscribe, subscribe. -/
theorem c6_sequence_membership_witness :
    WF ([] : SubscriptionSet) ∧
    (memConn (applyPairOps [] "r1" 7 [PairOp.sub 70, PairOp.unsub, PairOp.sub 71]) "r1" 7 =
      specMembership (memConn [] "r1" 7) [PairOp.sub 70, PairOp.unsub, PairOp.sub 71] ∧
    (memConn ([] : SubscriptionSet) "r1" 7 = false → unsubscribe [] "r1" 7 = [])) :=
  ⟨by decide, c6_sequence_membership [] "r1" 7
    [PairOp.sub 70, PairOp.unsub, PairOp.sub 71] (by decide)⟩

/-- C9: once a room key exists in the outer map it survives every
subsequent registry mutation (registrations and session cleanups of any
sessions); cleanup rewrites the room's inner map to the same map minus the
connection's entry, never removing the key; and a broadcast to a room
whose key is present with an empty inner map takes the emptiness-check
path: no delivery, no cancellation, no state change. -/
theorem c9_room_key_retained (s : SubscriptionSet) (room : String)
    (ops : List RegistryOp) (msg : Message) (sendOk : Conn → Bool)
    (hroom : hasRoom s room = true) :
    hasRoom (applyRegistryOps s ops) room = true ∧
    (∀ r c, mapLookup (unsubscribe s r c) r =
      (mapLookup s r).map (fun inner => mapErase inner c)) ∧
    (mapLookup s msg.RoomID = some [] → notifyClients s msg sendOk = (s, [], [])) := by
  refine ⟨hasRoom_applyRegistryOps ops s room hroom, ?_, ?_⟩
  · intro r c
    rw [unsubscribe]
    cases hl : mapLookup s r with
    | none =>
      show mapLookup s r = Option.map (fun inner => mapErase inner c) none
      rw [hl]
      rfl
    | some inner =>
      rw [mapLookup_mapInsert_self]
      rfl
  · intro hempty
    rw [notifyClients, hempty]
    simp

/-- C9 witness: the theorem applied to the one-subscriber registry, an
operation sequence that unsubscribes its only connection and re-registers
another one elsewhere, and the empty-room broadcast. -/
theorem c9_room_key_retained_witness :
    hasRoom regOneSub "r1" = true ∧
    (hasRoom (applyRegistryOps regOneSub
        [RegistryOp.doUnsubscribe "r1" 7, RegistryOp.doSubscribe "r2" 8 80]) "r1" = true ∧
    (∀ r c, mapLookup (unsubscribe regOneSub r c) r =
      (mapLookup regOneSub r).map (fun inner => mapErase inner c)) ∧
    (mapLookup regOneSub msgR1.RoomID = some [] →
      notifyClients regOneSub msgR1 sendOkAll = (regOneSub, [], []))) :=
  ⟨by decide,
   c9_room_key_retained regOneSub "r1"
     [RegistryOp.doUnsubscribe "r1" 7, RegistryOp.doSubscribe "r2" 8 80]
     msgR1 sendOkAll (by decide)⟩

end Claims

end WsServer
